import Mathlib

/-!
Shallow embedding of `engine.py` (Triangle-Splatting-Viewer).

The mesh loader `load_custom_off` is modelled at the token level: a source
file is a list of lines, each line carrying its raw characters (used only by
the header substring test `'OFF' in header`) and the result of
`.strip().split()` as a list of tokens.  A token is classified by which of
Python's numeric conversions accept it: `intTok n` stands for a token that
`int(...)` parses to `n` (and `float(...)` to the same value), `floatTok q`
for a token that only `float(...)` accepts, and `junk` for a token neither
accepts.  Python floats are modelled as rationals, exceptions as an explicit
`Except` value, and Python list indexing (including its negative-index
wrap-around and `IndexError`) by `pyIndex` / `listGet`.

The camera is modelled over the reals: `Camera` mirrors the Python class's
numeric state, `Camera.process_input` / `Camera.get_forward_vector` mirror
the corresponding methods, with `glm` vector operations spelled out on a
3-component real vector type.
-/

/-- Python exceptions that the parser body can raise. -/
inductive PyExc where
  | indexError
  | valueError
deriving DecidableEq, Repr

/-- A whitespace-separated token of a mesh line, classified by which Python
numeric conversions accept it. -/
inductive Token where
  | intTok (n : Int)
  | floatTok (q : ℚ)
  | junk
deriving DecidableEq, Repr

/-- One line of the source file: its raw characters (after `readlines`) and
the token list produced by `.strip().split()`. -/
structure PyLine where
  raw : List Char
  toks : List Token
deriving DecidableEq, Repr

/-- Python `int(tok)`: succeeds exactly on integer-literal tokens. -/
def pyInt : Token → Except PyExc Int
  | .intTok n => .ok n
  | .floatTok _ => .error .valueError
  | .junk => .error .valueError

/-- Python `float(tok)`: succeeds on integer and float literal tokens. -/
def pyFloat : Token → Except PyExc ℚ
  | .intTok n => .ok (n : ℚ)
  | .floatTok q => .ok q
  | .junk => .error .valueError

/-- Python `xs[i]` for a non-negative index: `IndexError` when out of range. -/
def listGet {α : Type} (xs : List α) (i : Nat) : Except PyExc α :=
  match xs.get? i with
  | some a => .ok a
  | none => .error .indexError

/-- Python `xs[i]` for an arbitrary (possibly negative) index: a negative
index `i` addresses position `i + len(xs)`, and `IndexError` is raised when
the effective position is out of range. -/
def pyIndex {α : Type} (xs : List α) (i : Int) : Except PyExc α :=
  if 0 ≤ i then listGet xs i.toNat
  else if 0 ≤ i + xs.length then listGet xs (i + xs.length).toNat
  else .error .indexError

/-- Python `list(map(f, xs))`: applies `f` left to right, propagating the
first exception. -/
def mapExcept {α β : Type} (f : α → Except PyExc β) : List α → Except PyExc (List β)
  | [] => .ok []
  | a :: as =>
    match f a with
    | .error e => .error e
    | .ok b =>
      match mapExcept f as with
      | .error e => .error e
      | .ok bs => .ok (b :: bs)

/-- Characters Python's `str.strip()` removes. -/
def isPySpace (c : Char) : Bool :=
  c = ' ' || c = '\t' || c = '\n' || c = '\r' || c = '\x0b' || c = '\x0c'

/-- Python `s.strip()` on a character list. -/
def pyStrip (s : List Char) : List Char :=
  ((s.dropWhile isPySpace).reverse.dropWhile isPySpace).reverse

/-- Whether `pat` is a prefix of `s` (Boolean, over character lists). -/
def startsWithChars : List Char → List Char → Bool
  | [], _ => true
  | _ :: _, [] => false
  | p :: ps, c :: cs => p = c && startsWithChars ps cs

/-- Python's substring test `pat in s` on character lists. -/
def hasSubChars (pat : List Char) : List Char → Bool
  | [] => startsWithChars pat []
  | c :: cs => startsWithChars pat (c :: cs) || hasSubChars pat cs

/-- The characters of the marker `"OFF"`. -/
def offChars : List Char := ['O', 'F', 'F']

/-- The characters of the marker `"COFF"`. -/
def coffChars : List Char := ['C', 'O', 'F', 'F']

/-- The header test of `load_custom_off` line 73: the parse proceeds unless
`'COFF' not in header and 'OFF' not in header`. -/
def headerOk (s : List Char) : Bool :=
  hasSubChars coffChars s || hasSubChars offChars s

/-- Python `int(parts[k])`. -/
def getInt (parts : List Token) (k : Nat) : Except PyExc Int :=
  match listGet parts k with
  | .error e => .error e
  | .ok t => pyInt t

/-- Python `float(parts[k])`. -/
def getFloat (parts : List Token) (k : Nat) : Except PyExc ℚ :=
  match listGet parts k with
  | .error e => .error e
  | .ok t => pyFloat t

/-- The body of the vertex-reading loop (engine.py lines 80-81): for each
`i` in `range(num_vertices)`, read `lines[2+i]` and convert every token with
`float`.  The first argument counts the remaining iterations, the second is
the current `i`. -/
def vertexLoop (lines : List PyLine) : Nat → Nat → Except PyExc (List (List ℚ))
  | 0, _ => .ok []
  | n + 1, i =>
    match listGet lines (2 + i) with
    | .error e => .error e
    | .ok l =>
      match mapExcept pyFloat l.toks with
      | .error e => .error e
      | .ok pos =>
        match vertexLoop lines n (i + 1) with
        | .error e => .error e
        | .ok rest => .ok (pos :: rest)

/-- Processing of one face record (engine.py lines 91-98), without the
progress callback: look up `lines[2 + num_vertices + i]`, skip the record
(`.ok none`) when `int(parts[0]) != 3`, otherwise parse three vertex indices
and three colour components and look the indices up in the vertex table with
Python list indexing.  Returns the three emitted position rows and the three
emitted colour rows. -/
def processFace (lines : List PyLine) (vps : List (List ℚ)) (V : Int) (i : Nat) :
    Except PyExc (Option (List (List ℚ) × List (List ℚ))) :=
  match pyIndex lines (2 + V + (i : Int)) with
  | .error e => .error e
  | .ok line =>
    match getInt line.toks 0 with
    | .error e => .error e
    | .ok n0 =>
      if n0 = 3 then
        match getInt line.toks 1, getInt line.toks 2, getInt line.toks 3 with
        | .error e, _, _ => .error e
        | .ok _, .error e, _ => .error e
        | .ok _, .ok _, .error e => .error e
        | .ok idx1, .ok idx2, .ok idx3 =>
          match getFloat line.toks 4, getFloat line.toks 5, getFloat line.toks 6 with
          | .error e, _, _ => .error e
          | .ok _, .error e, _ => .error e
          | .ok _, .ok _, .error e => .error e
          | .ok cr, .ok cg, .ok cb =>
            let color : List ℚ := [cr / 255, cg / 255, cb / 255]
            match pyIndex vps idx1, pyIndex vps idx2, pyIndex vps idx3 with
            | .error e, _, _ => .error e
            | .ok _, .error e, _ => .error e
            | .ok _, .ok _, .error e => .error e
            | .ok v1, .ok v2, .ok v3 =>
              .ok (some ([v1, v2, v3], [color, color, color]))
      else
        .ok none

/-- The progress-callback invocations of face iteration `i` (engine.py lines
87-89): one call with fraction `(i+1)/num_faces` when `i % 15000 == 0` or
`i == num_faces - 1`, recorded as the pair `(i, fraction)`. -/
def faceCall (F : Int) (i : Nat) : List (Nat × ℚ) :=
  if i % 15000 = 0 ∨ (i : Int) = F - 1 then [(i, ((i : ℚ) + 1) / (F : ℚ))] else []

/-- The face loop (engine.py lines 86-98): iterates `i` over `range(num_faces)`,
recording progress-callback invocations when a callback was supplied and
accumulating the emitted vertex and colour rows in face order. -/
def faceLoop (lines : List PyLine) (vps : List (List ℚ)) (V F : Int) (hasCb : Bool) :
    Nat → Nat → Except PyExc (List (List ℚ) × List (List ℚ) × List (Nat × ℚ))
  | 0, _ => .ok ([], [], [])
  | n + 1, i =>
    let calls := if hasCb then faceCall F i else []
    match processFace lines vps V i with
    | .error e => .error e
    | .ok none =>
      match faceLoop lines vps V F hasCb n (i + 1) with
      | .error e => .error e
      | .ok (vs, cs, cls) => .ok (vs, cs, calls ++ cls)
    | .ok (some (tri, cols)) =>
      match faceLoop lines vps V F hasCb n (i + 1) with
      | .error e => .error e
      | .ok (vs, cs, cls) => .ok (tri ++ vs, cols ++ cs, calls ++ cls)

/-- Stages of `load_custom_off` after `(num_vertices, num_faces)` have been
read from the counts line: the vertex loop over `range(num_vertices)` and
the face loop over `range(num_faces)`. -/
def loadAfterCounts (lines : List PyLine) (V F : Int) (hasCb : Bool) :
    Except PyExc (List (List ℚ) × List (List ℚ) × List (Nat × ℚ)) :=
  match vertexLoop lines V.toNat 0 with
  | .error e => .error e
  | .ok vps => faceLoop lines vps V F hasCb F.toNat 0

/-- The whole `try` body of `load_custom_off` (engine.py lines 69-104):
header check on `lines[0]`, `counts = list(map(int, lines[1].strip().split()))`,
`num_vertices, num_faces = counts[0], counts[1]`, then the vertex and face
loops.  Returns the final vertex rows, colour rows and callback trace, or the
first exception raised. -/
def loadBody (lines : List PyLine) (hasCb : Bool) :
    Except PyExc (List (List ℚ) × List (List ℚ) × List (Nat × ℚ)) :=
  match listGet lines 0 with
  | .error e => .error e
  | .ok l0 =>
    if headerOk (pyStrip l0.raw) then
      match listGet lines 1 with
      | .error e => .error e
      | .ok l1 =>
        match mapExcept pyInt l1.toks with
        | .error e => .error e
        | .ok counts =>
          match listGet counts 0 with
          | .error e => .error e
          | .ok V =>
            match listGet counts 1 with
            | .error e => .error e
            | .ok F => loadAfterCounts lines V F hasCb
    else .error .valueError

/-- `load_custom_off` (engine.py lines 62-108): run the body under the
catch-all `except Exception`, returning `(None, None)` on any exception and
the two parallel buffers on success. -/
def load_custom_off (lines : List PyLine) (hasCb : Bool) :
    Option (List (List ℚ)) × Option (List (List ℚ)) :=
  match loadBody lines hasCb with
  | .ok (v, c, _) => (some v, some c)
  | .error _ => (none, none)

/-- Whether face record `i` has leading count `3`, i.e. whether the line
lookup and `int(parts[0])` succeed and yield `3`. -/
def isTriFace (lines : List PyLine) (V : Int) (i : Nat) : Bool :=
  match pyIndex lines (2 + V + (i : Int)) with
  | .error _ => false
  | .ok line =>
    match getInt line.toks 0 with
    | .error _ => false
    | .ok n0 => n0 = 3

/-- Number of face records with leading count `3` among iterations
`i, i+1, ..., i+n-1`. -/
def countTri (lines : List PyLine) (V : Int) : Nat → Nat → Nat
  | 0, _ => 0
  | n + 1, i => (if isTriFace lines V i then 1 else 0) + countTri lines V n (i + 1)

/-- Whether face iteration `i` triggers the progress callback:
`i % 15000 == 0 or i == num_faces - 1`. -/
def qualifies (F : Int) (i : Nat) : Bool :=
  decide (i % 15000 = 0 ∨ (i : Int) = F - 1)

/-- The expected progress-callback trace for `n` face iterations starting at
`0`: one invocation `(i, (i+1)/F)` for each qualifying iteration `i`, in
order. -/
def callTrace (F : Int) (n : Nat) : List (Nat × ℚ) :=
  ((List.range n).filter (qualifies F)).map (fun i => (i, ((i : ℚ) + 1) / (F : ℚ)))

/-- Example file: a valid one-vertex, one-face mesh whose face references
vertex index `-1`. -/
def exNegIdx : List PyLine :=
  [⟨"OFF".toList, [Token.junk]⟩,
   ⟨"1 1".toList, [Token.intTok 1, Token.intTok 1]⟩,
   ⟨"0 0 0".toList, [Token.intTok 0, Token.intTok 0, Token.intTok 0]⟩,
   ⟨"3 -1 -1 -1 0 0 0".toList,
    [Token.intTok 3, Token.intTok (-1), Token.intTok (-1), Token.intTok (-1),
     Token.intTok 0, Token.intTok 0, Token.intTok 0]⟩]

/-- Example file: a one-vertex, one-face mesh whose face references vertex
index `5`, far outside the table. -/
def exOobIdx : List PyLine :=
  [⟨"OFF".toList, [Token.junk]⟩,
   ⟨"1 1".toList, [Token.intTok 1, Token.intTok 1]⟩,
   ⟨"0 0 0".toList, [Token.intTok 0, Token.intTok 0, Token.intTok 0]⟩,
   ⟨"3 5 0 0 0 0 0".toList,
    [Token.intTok 3, Token.intTok 5, Token.intTok 0, Token.intTok 0,
     Token.intTok 0, Token.intTok 0, Token.intTok 0]⟩]

/-- Example file: first line `"XOFF"`, which is neither of the two marker
tokens but contains `"OFF"` as a substring; empty mesh body. -/
def exXoff : List PyLine :=
  [⟨"XOFF".toList, [Token.junk]⟩,
   ⟨"0 0".toList, [Token.intTok 0, Token.intTok 0]⟩]

/-- Example file: first line `"PLY"`, which does not contain either marker. -/
def exBadHdr : List PyLine :=
  [⟨"PLY".toList, [Token.junk]⟩,
   ⟨"0 0".toList, [Token.intTok 0, Token.intTok 0]⟩]

/-- Example file: the spec's scenario — header `OFF`, counts `4 2` (with a
third, standard-OFF edge-count token `5`), four vertices, and two faces
`3 0 1 2 255 0 0`. -/
def exScene : List PyLine :=
  [⟨"OFF".toList, [Token.junk]⟩,
   ⟨"4 2 5".toList, [Token.intTok 4, Token.intTok 2, Token.intTok 5]⟩,
   ⟨"0 0 0".toList, [Token.intTok 0, Token.intTok 0, Token.intTok 0]⟩,
   ⟨"1 0 0".toList, [Token.intTok 1, Token.intTok 0, Token.intTok 0]⟩,
   ⟨"0 1 0".toList, [Token.intTok 0, Token.intTok 1, Token.intTok 0]⟩,
   ⟨"0 0 1".toList, [Token.intTok 0, Token.intTok 0, Token.intTok 1]⟩,
   ⟨"3 0 1 2 255 0 0".toList,
    [Token.intTok 3, Token.intTok 0, Token.intTok 1, Token.intTok 2,
     Token.intTok 255, Token.intTok 0, Token.intTok 0]⟩,
   ⟨"3 0 1 2 255 0 0".toList,
    [Token.intTok 3, Token.intTok 0, Token.intTok 1, Token.intTok 2,
     Token.intTok 255, Token.intTok 0, Token.intTok 0]⟩]

/-- The rational `0` in the exact form `float("0")` produces it. -/
def q0 : ℚ := ((0 : Int) : ℚ)

/-- The rational `1` in the exact form `float("1")` produces it. -/
def q1 : ℚ := ((1 : Int) : ℚ)

/-- The colour `(255/255, 0/255, 0/255)` in the exact form the face loop
produces it. -/
def colRed : List ℚ := [((255 : Int) : ℚ) / 255, q0 / 255, q0 / 255]

/-- The colour `(0/255, 0/255, 0/255)` in the exact form the face loop
produces it. -/
def col0 : List ℚ := [q0 / 255, q0 / 255, q0 / 255]

/-- The vertex table parsed from `exScene`. -/
def exSceneVps : List (List ℚ) :=
  [[q0, q0, q0], [q1, q0, q0], [q0, q1, q0], [q0, q0, q1]]

/-- The position buffer `load_custom_off` produces on `exScene`. -/
def exSceneV : List (List ℚ) :=
  [[q0, q0, q0], [q1, q0, q0], [q0, q1, q0], [q0, q0, q0], [q1, q0, q0], [q0, q1, q0]]

/-- The colour buffer `load_custom_off` produces on `exScene`. -/
def exSceneC : List (List ℚ) :=
  [colRed, colRed, colRed, colRed, colRed, colRed]

/-- The progress fraction `(0+1)/2` in the exact form the face loop produces
it. -/
def frac0 : ℚ := (((0 : ℕ) : ℚ) + 1) / ((2 : Int) : ℚ)

/-- The progress fraction `(1+1)/2` in the exact form the face loop produces
it. -/
def frac1 : ℚ := (((1 : ℕ) : ℚ) + 1) / ((2 : Int) : ℚ)

/-- Example file: counts line `1 x` where `x` is not numeric. -/
def exBadTok : List PyLine :=
  [⟨"OFF".toList, [Token.junk]⟩,
   ⟨"1 x".toList, [Token.intTok 1, Token.junk]⟩]

/-- Example file: counts line holding a single integer. -/
def exShortCounts : List PyLine :=
  [⟨"OFF".toList, [Token.junk]⟩,
   ⟨"7".toList, [Token.intTok 7]⟩]

/-- Example file: empty counts line. -/
def exEmptyCounts : List PyLine :=
  [⟨"OFF".toList, [Token.junk]⟩,
   ⟨"".toList, []⟩]

/-- A 3-component real vector, modelling `glm.vec3`. -/
@[ext]
structure Vec3 where
  x : ℝ
  y : ℝ
  z : ℝ

/-- Componentwise vector addition. -/
def Vec3.add (a b : Vec3) : Vec3 := ⟨a.x + b.x, a.y + b.y, a.z + b.z⟩

/-- Componentwise vector subtraction. -/
def Vec3.sub (a b : Vec3) : Vec3 := ⟨a.x - b.x, a.y - b.y, a.z - b.z⟩

instance : Add Vec3 := ⟨Vec3.add⟩

instance : Sub Vec3 := ⟨Vec3.sub⟩

/-- Componentwise scaling `v * k`, modelling `glm.vec3 * float`. -/
def Vec3.scale (v : Vec3) (k : ℝ) : Vec3 := ⟨v.x * k, v.y * k, v.z * k⟩

/-- Euclidean length, modelling `glm.length`. -/
noncomputable def Vec3.norm (v : Vec3) : ℝ := Real.sqrt (v.x ^ 2 + v.y ^ 2 + v.z ^ 2)

/-- `glm.normalize`: divide each component by the length. -/
noncomputable def Vec3.normalize (v : Vec3) : Vec3 :=
  ⟨v.x / v.norm, v.y / v.norm, v.z / v.norm⟩

/-- `glm.cross`. -/
def Vec3.cross (a b : Vec3) : Vec3 :=
  ⟨a.y * b.z - a.z * b.y, a.z * b.x - a.x * b.z, a.x * b.y - a.y * b.x⟩

/-- `glm.radians`: degrees to radians. -/
noncomputable def radians (d : ℝ) : ℝ := d * (Real.pi / 180)

/-- The fixed world-up vector `glm.vec3(0, 1, 0)`. -/
def worldUp : Vec3 := ⟨0, 1, 0⟩

/-- The numeric state of the `Camera` class. -/
structure Camera where
  position : Vec3
  yaw : ℝ
  pitch : ℝ
  speed : ℝ
  mouse_sensitivity : ℝ

/-- `Camera.__init__` with its default arguments: position `(0, 2, 20)`,
yaw `-90`, pitch `0`, speed `5`, mouse sensitivity `0.1`. -/
noncomputable def Camera.init : Camera :=
  { position := ⟨0, 2, 20⟩, yaw := -90, pitch := 0, speed := 5,
    mouse_sensitivity := 0.1 }

/-- `Camera.get_forward_vector`: spherical-to-Cartesian conversion from yaw
and pitch (in degrees), followed by normalization. -/
noncomputable def Camera.get_forward_vector (c : Camera) : Vec3 :=
  Vec3.normalize
    ⟨Real.cos (radians c.yaw) * Real.cos (radians c.pitch),
     Real.sin (radians c.pitch),
     Real.sin (radians c.yaw) * Real.cos (radians c.pitch)⟩

/-- The pressed-key set relevant to `Camera.process_input`. -/
structure Keys where
  w : Bool
  s : Bool
  a : Bool
  d : Bool
  space : Bool
  lctrl : Bool
  lshift : Bool

/-- `Camera.process_input` (engine.py lines 133-150): update yaw and pitch
from the mouse delta, clamp pitch to `[-89, 89]`, then apply one translation
per pressed movement key in source order. -/
noncomputable def Camera.process_input (c : Camera) (keys : Keys)
    (mouse_rel : ℝ × ℝ) (delta_time : ℝ) : Camera :=
  let yaw := c.yaw + mouse_rel.1 * c.mouse_sensitivity
  let pitch := max (-89 : ℝ) (min 89 (c.pitch - mouse_rel.2 * c.mouse_sensitivity))
  let c1 : Camera := { c with yaw := yaw, pitch := pitch }
  let velocity := c1.speed * delta_time
  let forward := c1.get_forward_vector
  let right := (forward.cross worldUp).normalize
  let up := worldUp
  let p1 := if keys.w then c1.position + forward.scale velocity else c1.position
  let p2 := if keys.s then p1 - forward.scale velocity else p1
  let p3 := if keys.a then p2 - right.scale velocity else p2
  let p4 := if keys.d then p3 + right.scale velocity else p3
  let p5 := if keys.space then p4 + up.scale velocity else p4
  let p6 := if keys.lctrl || keys.lshift then p5 - up.scale velocity else p5
  { c1 with position := p6 }

/-- Iterated `process_input` over a finite sequence of per-frame inputs. -/
noncomputable def runInputs (c : Camera) : List (Keys × (ℝ × ℝ) × ℝ) → Camera
  | [] => c
  | (k, m, dt) :: rest => runInputs (c.process_input k m dt) rest

/-! Helper lemmas about the camera. -/

theorem Vec3.add_sub_cancel_right (a b : Vec3) : a + b - b = a := by
  show Vec3.sub (Vec3.add a b) b = a
  simp [Vec3.add, Vec3.sub]

theorem Vec3.sub_add_cancel_right (a b : Vec3) : a - b + b = a := by
  show Vec3.add (Vec3.sub a b) b = a
  simp [Vec3.add, Vec3.sub]

theorem process_input_pitch (c : Camera) (keys : Keys) (m : ℝ × ℝ) (dt : ℝ) :
    (c.process_input keys m dt).pitch
      = max (-89 : ℝ) (min 89 (c.pitch - m.2 * c.mouse_sensitivity)) := rfl

theorem process_input_pitch_bounds (c : Camera) (keys : Keys) (m : ℝ × ℝ) (dt : ℝ) :
    -89 ≤ (c.process_input keys m dt).pitch ∧ (c.process_input keys m dt).pitch ≤ 89 := by
  rw [process_input_pitch]
  exact ⟨le_max_left _ _, max_le (by norm_num) (min_le_left _ _)⟩

theorem runInputs_pitch_bounds (inputs : List (Keys × (ℝ × ℝ) × ℝ)) :
    ∀ c : Camera, -89 ≤ c.pitch → c.pitch ≤ 89 →
      -89 ≤ (runInputs c inputs).pitch ∧ (runInputs c inputs).pitch ≤ 89 := by
  induction inputs with
  | nil => intro c h1 h2; exact ⟨h1, h2⟩
  | cons hd tl ih =>
    intro c _ _
    obtain ⟨k, m, dt⟩ := hd
    have hb := process_input_pitch_bounds c k m dt
    exact ih (c.process_input k m dt) hb.1 hb.2

theorem forward_norm_one (c : Camera) : c.get_forward_vector.norm = 1 := by
  have key : ∀ a b : ℝ,
      (Real.cos a * Real.cos b) ^ 2 + Real.sin b ^ 2 + (Real.sin a * Real.cos b) ^ 2 = 1 := by
    intro a b
    have h1 := Real.sin_sq_add_cos_sq a
    have h2 := Real.sin_sq_add_cos_sq b
    nlinarith
  have hd : Vec3.norm
      ⟨Real.cos (radians c.yaw) * Real.cos (radians c.pitch),
       Real.sin (radians c.pitch),
       Real.sin (radians c.yaw) * Real.cos (radians c.pitch)⟩ = 1 := by
    unfold Vec3.norm
    rw [key, Real.sqrt_one]
  show Vec3.norm (Vec3.normalize _) = 1
  unfold Vec3.normalize
  rw [hd]
  simpa using hd

/-- C7: starting from the initial camera state, after every finite sequence
of `process_input` calls with arbitrary pointer-motion deltas, key sets and
elapsed times, the camera's pitch lies in `[-89, 89]`. -/
theorem camera_pitch_always_clamped (inputs : List (Keys × (ℝ × ℝ) × ℝ)) :
    -89 ≤ (runInputs Camera.init inputs).pitch ∧ (runInputs Camera.init inputs).pitch ≤ 89 := by
  refine runInputs_pitch_bounds inputs Camera.init ?_ ?_ <;> simp [Camera.init]

/-- C8: for every camera state and every input, the forward direction vector
computed by the spherical-to-Cartesian conversion followed by normalization
has magnitude exactly 1 immediately after `process_input` (for any yaw and
pitch; the real-valued model has no floating-point error). -/
theorem forward_vector_unit_after_process_input (c : Camera) (keys : Keys)
    (m : ℝ × ℝ) (dt : ℝ) :
    Vec3.norm (Camera.get_forward_vector (Camera.process_input c keys m dt)) = 1 :=
  forward_norm_one _

/-- C9: in any frame in which the two opposing movement keys of one axis are
both pressed (forward and backward, left and right, or up and down), the two
translations cancel exactly: the resulting camera state equals the one
obtained with both keys of that pair released. -/
theorem opposing_keys_cancel (c : Camera) (keys : Keys) (m : ℝ × ℝ) (dt : ℝ) :
    Camera.process_input c { keys with w := true, s := true } m dt
        = Camera.process_input c { keys with w := false, s := false } m dt
      ∧ Camera.process_input c { keys with a := true, d := true } m dt
        = Camera.process_input c { keys with a := false, d := false } m dt
      ∧ Camera.process_input c { keys with space := true, lctrl := true, lshift := false } m dt
        = Camera.process_input c { keys with space := false, lctrl := false, lshift := false } m dt := by
  refine ⟨?_, ?_, ?_⟩ <;>
    simp [Camera.process_input, Vec3.add_sub_cancel_right, Vec3.sub_add_cancel_right]

/-! Helper lemmas about the parser. -/

theorem listGet_ok_iff {α : Type} {xs : List α} {i : Nat} {a : α} :
    listGet xs i = .ok a ↔ xs.get? i = some a := by
  unfold listGet
  cases h : xs.get? i <;> simp

theorem listGet_ok_lt {α : Type} {xs : List α} {i : Nat} {a : α}
    (h : listGet xs i = .ok a) : i < xs.length := by
  rw [listGet_ok_iff] at h
  exact List.get?_eq_some.mp h |>.1

theorem pyIndex_ok_bounds {α : Type} {xs : List α} {i : Int} {a : α}
    (h : pyIndex xs i = .ok a) : -(xs.length : Int) ≤ i ∧ i < (xs.length : Int) := by
  unfold pyIndex at h
  split_ifs at h with h1 h2
  · have := listGet_ok_lt h
    omega
  · have := listGet_ok_lt h
    omega

theorem vertexLoop_length (lines : List PyLine) :
    ∀ n i {vps : List (List ℚ)}, vertexLoop lines n i = .ok vps → vps.length = n := by
  intro n
  induction n with
  | zero =>
    intro i vps h
    rw [vertexLoop] at h
    simp only [Except.ok.injEq] at h
    subst h
    rfl
  | succ n ih =>
    intro i vps h
    rw [vertexLoop] at h
    split at h
    · exact absurd h (by simp)
    · split at h
      · exact absurd h (by simp)
      · split at h
        · exact absurd h (by simp)
        · next pos rest hrest =>
          simp only [Except.ok.injEq] at h
          subst h
          simp [ih (i + 1) hrest]

theorem processFace_cases (lines : List PyLine) (vps : List (List ℚ)) (V : Int) (i : Nat) :
    (∃ e, processFace lines vps V i = .error e)
      ∨ (processFace lines vps V i = .ok none ∧ isTriFace lines V i = false)
      ∨ (∃ tri cols, processFace lines vps V i = .ok (some (tri, cols))
          ∧ isTriFace lines V i = true ∧ tri.length = 3 ∧ cols.length = 3) := by
  cases hl : pyIndex lines (2 + V + (i : Int)) with
  | error e => exact Or.inl ⟨e, by simp [processFace, hl]⟩
  | ok line =>
    cases h0 : getInt line.toks 0 with
    | error e => exact Or.inl ⟨e, by simp [processFace, hl, h0]⟩
    | ok n0 =>
      by_cases h3 : n0 = 3
      · subst h3
        cases h1 : getInt line.toks 1 with
        | error e => exact Or.inl ⟨e, by simp [processFace, hl, h0, h1]⟩
        | ok i1 =>
          cases h2 : getInt line.toks 2 with
          | error e => exact Or.inl ⟨e, by simp [processFace, hl, h0, h1, h2]⟩
          | ok i2 =>
            cases h3b : getInt line.toks 3 with
            | error e => exact Or.inl ⟨e, by simp [processFace, hl, h0, h1, h2, h3b]⟩
            | ok i3 =>
              cases h4 : getFloat line.toks 4 with
              | error e => exact Or.inl ⟨e, by simp [processFace, hl, h0, h1, h2, h3b, h4]⟩
              | ok cr =>
                cases h5 : getFloat line.toks 5 with
                | error e => exact Or.inl ⟨e, by simp [processFace, hl, h0, h1, h2, h3b, h4, h5]⟩
                | ok cg =>
                  cases h6 : getFloat line.toks 6 with
                  | error e =>
                    exact Or.inl ⟨e, by simp [processFace, hl, h0, h1, h2, h3b, h4, h5, h6]⟩
                  | ok cb =>
                    cases hv1 : pyIndex vps i1 with
                    | error e =>
                      exact Or.inl ⟨e, by simp [processFace, hl, h0, h1, h2, h3b, h4, h5, h6, hv1]⟩
                    | ok v1 =>
                      cases hv2 : pyIndex vps i2 with
                      | error e =>
                        exact Or.inl ⟨e, by
                          simp [processFace, hl, h0, h1, h2, h3b, h4, h5, h6, hv1, hv2]⟩
                      | ok v2 =>
                        cases hv3 : pyIndex vps i3 with
                        | error e =>
                          exact Or.inl ⟨e, by
                            simp [processFace, hl, h0, h1, h2, h3b, h4, h5, h6, hv1, hv2, hv3]⟩
                        | ok v3 =>
                          refine Or.inr (Or.inr ⟨[v1, v2, v3],
                            [[cr / 255, cg / 255, cb / 255], [cr / 255, cg / 255, cb / 255],
                             [cr / 255, cg / 255, cb / 255]], ?_, ?_, rfl, rfl⟩)
                          · simp [processFace, hl, h0, h1, h2, h3b, h4, h5, h6, hv1, hv2, hv3]
                          · simp [isTriFace, hl, h0]
      · refine Or.inr (Or.inl ⟨?_, ?_⟩)
        · simp [processFace, hl, h0, h3]
        · simp [isTriFace, hl, h0, h3]

theorem faceLoop_ok_lengths (lines : List PyLine) (vps : List (List ℚ)) (V F : Int) (cb : Bool) :
    ∀ n i {vs cs : List (List ℚ)} {cls : List (Nat × ℚ)},
      faceLoop lines vps V F cb n i = .ok (vs, cs, cls) →
        vs.length = cs.length ∧ vs.length = 3 * countTri lines V n i := by
  intro n
  induction n with
  | zero =>
    intro i vs cs cls h
    rw [faceLoop] at h
    simp only [Except.ok.injEq, Prod.mk.injEq] at h
    obtain ⟨h1, h2, -⟩ := h
    subst h1
    subst h2
    simp [countTri]
  | succ n ih =>
    intro i vs cs cls h
    rcases processFace_cases lines vps V i with ⟨e, hp⟩ | ⟨hp, ht⟩ | ⟨tri, cols, hp, ht, hl1, hl2⟩
    · rw [faceLoop] at h
      simp [hp] at h
    · rw [faceLoop] at h
      simp only [hp] at h
      cases hr : faceLoop lines vps V F cb n (i + 1) with
      | error e => simp [hr] at h
      | ok out =>
        obtain ⟨vs', cs', cls'⟩ := out
        simp only [hr, Except.ok.injEq, Prod.mk.injEq] at h
        obtain ⟨h1, h2, -⟩ := h
        subst h1
        subst h2
        have hih := ih (i + 1) hr
        constructor
        · exact hih.1
        · rw [hih.2]
          simp [countTri, ht]
    · rw [faceLoop] at h
      simp only [hp] at h
      cases hr : faceLoop lines vps V F cb n (i + 1) with
      | error e => simp [hr] at h
      | ok out =>
        obtain ⟨vs', cs', cls'⟩ := out
        simp only [hr, Except.ok.injEq, Prod.mk.injEq] at h
        obtain ⟨h1, h2, -⟩ := h
        subst h1
        subst h2
        have hih := ih (i + 1) hr
        constructor
        · simp [hl1, hl2, hih.1]
        · have := hih.2
          simp only [countTri, ht, if_pos]
          simp [List.length_append, hl1, this]
          ring

theorem faceCall_append_trace (F : Int) (i n : Nat) :
    faceCall F i ++ ((List.range' (i + 1) n).filter (qualifies F)).map
        (fun (j : Nat) => (j, ((j : ℚ) + 1) / (F : ℚ)))
      = ((List.range' i (n + 1)).filter (qualifies F)).map
          (fun (j : Nat) => (j, ((j : ℚ) + 1) / (F : ℚ))) := by
  have hr : List.range' i (n + 1) = i :: List.range' (i + 1) n := List.range'_succ i n 1
  rw [hr]
  by_cases hq : (i % 15000 = 0 ∨ (i : Int) = F - 1)
  · simp [faceCall, hq, qualifies, List.filter_cons]
  · simp [faceCall, hq, qualifies, List.filter_cons]

theorem faceLoop_ok_calls (lines : List PyLine) (vps : List (List ℚ)) (V F : Int) :
    ∀ n i {vs cs : List (List ℚ)} {cls : List (Nat × ℚ)},
      faceLoop lines vps V F true n i = .ok (vs, cs, cls) →
        cls = ((List.range' i n).filter (qualifies F)).map
          (fun (j : Nat) => (j, ((j : ℚ) + 1) / (F : ℚ))) := by
  intro n
  induction n with
  | zero =>
    intro i vs cs cls h
    rw [faceLoop] at h
    simp only [Except.ok.injEq, Prod.mk.injEq] at h
    obtain ⟨-, -, h3⟩ := h
    subst h3
    simp
  | succ n ih =>
    intro i vs cs cls h
    rcases processFace_cases lines vps V i with ⟨e, hp⟩ | ⟨hp, -⟩ | ⟨tri, cols, hp, -, -, -⟩
    · rw [faceLoop] at h
      simp [hp] at h
    · rw [faceLoop] at h
      simp only [hp] at h
      cases hr : faceLoop lines vps V F true n (i + 1) with
      | error e => simp [hr] at h
      | ok out =>
        obtain ⟨vs', cs', cls'⟩ := out
        simp only [hr, Except.ok.injEq, Prod.mk.injEq, if_true] at h
        obtain ⟨-, -, h3⟩ := h
        rw [← h3, ih (i + 1) hr]
        exact faceCall_append_trace F i n
    · rw [faceLoop] at h
      simp only [hp] at h
      cases hr : faceLoop lines vps V F true n (i + 1) with
      | error e => simp [hr] at h
      | ok out =>
        obtain ⟨vs', cs', cls'⟩ := out
        simp only [hr, Except.ok.injEq, Prod.mk.injEq, if_true] at h
        obtain ⟨-, -, h3⟩ := h
        rw [← h3, ih (i + 1) hr]
        exact faceCall_append_trace F i n

theorem faceLoop_ok_faces (lines : List PyLine) (vps : List (List ℚ)) (V F : Int) (cb : Bool) :
    ∀ n i {out}, faceLoop lines vps V F cb n i = .ok out →
      ∀ j, i ≤ j → j < i + n → ∃ x, processFace lines vps V j = .ok x := by
  intro n
  induction n with
  | zero =>
    intro i out h j hj1 hj2
    omega
  | succ n ih =>
    intro i out h j hj1 hj2
    rcases processFace_cases lines vps V i with ⟨e, hp⟩ | ⟨hp, -⟩ | ⟨tri, cols, hp, -, -, -⟩
    · rw [faceLoop] at h
      simp [hp] at h
    · rcases Nat.eq_or_lt_of_le hj1 with rfl | hlt
      · exact ⟨none, hp⟩
      · rw [faceLoop] at h
        simp only [hp] at h
        cases hr : faceLoop lines vps V F cb n (i + 1) with
        | error e => simp [hr] at h
        | ok out' => exact ih (i + 1) hr j hlt (by omega)
    · rcases Nat.eq_or_lt_of_le hj1 with rfl | hlt
      · exact ⟨some (tri, cols), hp⟩
      · rw [faceLoop] at h
        simp only [hp] at h
        cases hr : faceLoop lines vps V F cb n (i + 1) with
        | error e => simp [hr] at h
        | ok out' => exact ih (i + 1) hr j hlt (by omega)

theorem loadBody_ok_inv {lines : List PyLine} {hasCb : Bool} {l1 : PyLine} {V F : Int}
    {rest : List Int} {v c : List (List ℚ)} {cls : List (Nat × ℚ)}
    (h1 : listGet lines 1 = .ok l1)
    (hc : mapExcept pyInt l1.toks = .ok (V :: F :: rest))
    (h : loadBody lines hasCb = .ok (v, c, cls)) :
    ∃ vps, vertexLoop lines V.toNat 0 = .ok vps
      ∧ vps.length = V.toNat
      ∧ faceLoop lines vps V F hasCb F.toNat 0 = .ok (v, c, cls) := by
  rw [loadBody] at h
  cases h0 : listGet lines 0 with
  | error e => simp [h0] at h
  | ok l0 =>
    simp only [h0] at h
    cases hH : headerOk (pyStrip l0.raw) with
    | false => simp [hH] at h
    | true =>
      simp only [hH, if_true] at h
      simp only [h1] at h
      simp only [hc] at h
      have e0 : listGet (V :: F :: rest) 0 = .ok V := rfl
      have e1 : listGet (V :: F :: rest) 1 = .ok F := rfl
      simp only [e0, e1] at h
      unfold loadAfterCounts at h
      cases hv : vertexLoop lines V.toNat 0 with
      | error e => simp [hv] at h
      | ok vps =>
        refine ⟨vps, rfl, vertexLoop_length lines V.toNat 0 hv, ?_⟩
        simpa [hv] using h

/-- C6: for every input and every exception arising inside the parse body,
`load_custom_off` catches it and returns the sentinel `(None, None)`; on a
body that completes, it returns the two buffers.  In particular the function
is total: it never propagates an exception. -/
theorem load_custom_off_never_raises (lines : List PyLine) (hasCb : Bool) :
    (∃ v c cls, loadBody lines hasCb = .ok (v, c, cls)
        ∧ load_custom_off lines hasCb = (some v, some c))
      ∨ (∃ e, loadBody lines hasCb = .error e
          ∧ load_custom_off lines hasCb = (none, none)) := by
  cases h : loadBody lines hasCb with
  | error e => exact Or.inr ⟨e, rfl, by simp [load_custom_off, h]⟩
  | ok out =>
    obtain ⟨v, c, cls⟩ := out
    exact Or.inl ⟨v, c, cls, rfl, by simp [load_custom_off, h]⟩

/-- C3: for every input accepted by the parse (result is not the sentinel),
the two returned sequences have equal length, namely three times the number
of face records whose leading count equals `3`. -/
theorem buffer_lengths_three_times_tri_faces (lines : List PyLine) (hasCb : Bool)
    (l1 : PyLine) (V F : Int) (rest : List Int) (v c : List (List ℚ))
    (h1 : listGet lines 1 = .ok l1)
    (hc : mapExcept pyInt l1.toks = .ok (V :: F :: rest))
    (hload : load_custom_off lines hasCb = (some v, some c)) :
    v.length = c.length ∧ v.length = 3 * countTri lines V F.toNat 0 := by
  have hbody : ∃ cls, loadBody lines hasCb = .ok (v, c, cls) := by
    rw [load_custom_off] at hload
    cases h : loadBody lines hasCb with
    | error e => simp [h] at hload
    | ok out =>
      obtain ⟨v', c', cls'⟩ := out
      simp only [h, Prod.mk.injEq, Option.some.injEq] at hload
      exact ⟨cls', by rw [hload.1, hload.2]⟩
  obtain ⟨cls, hbody⟩ := hbody
  obtain ⟨vps, -, -, hface⟩ := loadBody_ok_inv h1 hc hbody
  exact faceLoop_ok_lengths lines vps V F hasCb F.toNat 0 hface

theorem mapExcept_error_of_mem {α β : Type} {f : α → Except PyExc β} {l : List α} {t : α}
    (ht : t ∈ l) {e : PyExc} (he : f t = .error e) :
    ∃ e2, mapExcept f l = .error e2 := by
  induction l with
  | nil => cases ht
  | cons a as ih =>
    cases hfa : f a with
    | error e0 => exact ⟨e0, by rw [mapExcept, hfa]⟩
    | ok b =>
      rcases List.mem_cons.mp ht with rfl | hmem
      · rw [hfa] at he
        cases he
      · obtain ⟨e2, hmap⟩ := ih hmem
        exact ⟨e2, by rw [mapExcept, hfa, hmap]⟩

theorem hasSub_of_startsWith (pat : List Char) (s : List Char)
    (h : startsWithChars pat s = true) : hasSubChars pat s = true := by
  cases s with
  | nil => rw [hasSubChars]; exact h
  | cons c cs => rw [hasSubChars]; simp [h]

theorem hasSub_off_of_coff (s : List Char) (h : hasSubChars coffChars s = true) :
    hasSubChars offChars s = true := by
  induction s with
  | nil => exact absurd h (by decide)
  | cons c cs ih =>
    rw [hasSubChars] at h
    rcases Bool.or_eq_true_iff.mp h with hs | ht
    · have hcoff : coffChars = 'C' :: offChars := rfl
      rw [hcoff, startsWithChars] at hs
      obtain ⟨-, hrest⟩ := Bool.and_eq_true_iff.mp hs
      rw [hasSubChars]
      simp [hasSub_of_startsWith offChars cs hrest]
    · rw [hasSubChars]
      simp [ih ht]

theorem processFace_ok_indices {lines : List PyLine} {vps : List (List ℚ)} {V : Int} {j : Nat}
    {fline : PyLine} {i1 i2 i3 r g b : Int} {x : Option (List (List ℚ) × List (List ℚ))}
    (hf : pyIndex lines (2 + V + (j : Int)) = .ok fline)
    (ht : fline.toks = [Token.intTok 3, Token.intTok i1, Token.intTok i2, Token.intTok i3,
      Token.intTok r, Token.intTok g, Token.intTok b])
    (hx : processFace lines vps V j = .ok x) :
    (∃ w, pyIndex vps i1 = .ok w) ∧ (∃ w, pyIndex vps i2 = .ok w)
      ∧ (∃ w, pyIndex vps i3 = .ok w) := by
  have g0 : getInt fline.toks 0 = .ok 3 := by rw [ht]; rfl
  have g1 : getInt fline.toks 1 = .ok i1 := by rw [ht]; rfl
  have g2 : getInt fline.toks 2 = .ok i2 := by rw [ht]; rfl
  have g3 : getInt fline.toks 3 = .ok i3 := by rw [ht]; rfl
  have g4 : getFloat fline.toks 4 = .ok ((r : ℚ)) := by rw [ht]; rfl
  have g5 : getFloat fline.toks 5 = .ok ((g : ℚ)) := by rw [ht]; rfl
  have g6 : getFloat fline.toks 6 = .ok ((b : ℚ)) := by rw [ht]; rfl
  rw [processFace] at hx
  simp only [hf, g0, g1, g2, g3, g4, g5, g6, if_pos] at hx
  cases k1 : pyIndex vps i1 with
  | error e => simp [k1] at hx
  | ok w1 =>
    cases k2 : pyIndex vps i2 with
    | error e => simp [k1, k2] at hx
    | ok w2 =>
      cases k3 : pyIndex vps i3 with
      | error e => simp [k1, k2, k3] at hx
      | ok w3 => exact ⟨⟨w1, rfl⟩, ⟨w2, rfl⟩, ⟨w3, rfl⟩⟩

/-- C2 counterexample: the first line `"XOFF"` is neither of the two
recognized marker tokens (`"OFF"`, `"COFF"`), yet the parse does not return
the sentinel — header validation is a substring test, not a token
comparison, so the claim as stated is false. -/
theorem header_token_claim_counterexample :
    (exXoff.get? 0).map PyLine.raw = some "XOFF".toList
      ∧ pyStrip "XOFF".toList ≠ "OFF".toList
      ∧ pyStrip "XOFF".toList ≠ "COFF".toList
      ∧ load_custom_off exXoff false = (some [], some []) :=
  ⟨rfl, by decide, by decide, rfl⟩

/-- C2 amended: the parse returns the sentinel exactly when the stripped
first line does not contain `"OFF"` as a substring; the header test passes
if and only if the stripped first line contains `"OFF"` as a substring
(containing `"COFF"` is equivalent, since `"OFF"` is a substring of
`"COFF"`). -/
theorem header_check_is_substring_test (lines : List PyLine) (hasCb : Bool) (l0 : PyLine)
    (h0 : listGet lines 0 = .ok l0) :
    (headerOk (pyStrip l0.raw) = false → load_custom_off lines hasCb = (none, none))
      ∧ (headerOk (pyStrip l0.raw) = true ↔ hasSubChars offChars (pyStrip l0.raw) = true) := by
  constructor
  · intro hh
    have hbody : loadBody lines hasCb = .error .valueError := by
      rw [loadBody]
      simp [h0, hh]
    simp [load_custom_off, hbody]
  · constructor
    · intro hh
      rw [headerOk] at hh
      rcases Bool.or_eq_true_iff.mp hh with h | h
      · exact hasSub_off_of_coff _ h
      · exact h
    · intro hh
      rw [headerOk]
      simp [hh]

/-- Witness for C2 amended: on a file whose first line `"PLY"` contains no
marker the parse returns the sentinel, and on the first line `"XOFF"` the
header test passes exactly because `"OFF"` occurs as a substring. -/
theorem header_check_is_substring_test_witness :
    load_custom_off exBadHdr false = (none, none)
      ∧ (headerOk (pyStrip "XOFF".toList) = true
          ↔ hasSubChars offChars (pyStrip "XOFF".toList) = true) :=
  ⟨(header_check_is_substring_test exBadHdr false ⟨"PLY".toList, [Token.junk]⟩ rfl).1
      (by decide),
   (header_check_is_substring_test exXoff false ⟨"XOFF".toList, [Token.junk]⟩ rfl).2⟩

/-- C1 counterexample: a face referencing vertex index `-1` — outside
`[0, V)` — does not make the parse fail: Python's negative list indexing
resolves it to the last vertex and the parse succeeds, so the claim's
"including negative indices" part is false. -/
theorem negative_index_claim_counterexample :
    (exNegIdx.get? 3).map PyLine.toks
        = some [Token.intTok 3, Token.intTok (-1), Token.intTok (-1), Token.intTok (-1),
            Token.intTok 0, Token.intTok 0, Token.intTok 0]
      ∧ ¬(0 ≤ (-1 : Int))
      ∧ load_custom_off exNegIdx false
        = (some [[q0, q0, q0], [q0, q0, q0], [q0, q0, q0]], some [col0, col0, col0]) :=
  ⟨rfl, by decide, rfl⟩

/-- C1 amended: a triangular face record whose vertex index lies outside
`[-V, V)` — the range Python list indexing accepts — makes the parse fail
and return the sentinel `(None, None)`; indices in `[-V, 0)` are instead
resolved by Python's negative indexing to vertex `V + idx` and do not fail. -/
theorem index_outside_pyrange_gives_sentinel (lines : List PyLine) (hasCb : Bool)
    (l1 fline : PyLine) (V F : Int) (rest : List Int) (j : Nat) (i1 i2 i3 r g b : Int)
    (h1 : listGet lines 1 = .ok l1)
    (hc : mapExcept pyInt l1.toks = .ok (V :: F :: rest))
    (hj : j < F.toNat)
    (hf : pyIndex lines (2 + V + (j : Int)) = .ok fline)
    (ht : fline.toks = [Token.intTok 3, Token.intTok i1, Token.intTok i2, Token.intTok i3,
      Token.intTok r, Token.intTok g, Token.intTok b])
    (hout : (i1 < -V ∨ V ≤ i1) ∨ (i2 < -V ∨ V ≤ i2) ∨ (i3 < -V ∨ V ≤ i3)) :
    load_custom_off lines hasCb = (none, none) := by
  cases hb : loadBody lines hasCb with
  | error e => simp [load_custom_off, hb]
  | ok out =>
    exfalso
    obtain ⟨v, c, cls⟩ := out
    obtain ⟨vps, -, hlen, hface⟩ := loadBody_ok_inv h1 hc hb
    obtain ⟨x, hx⟩ :=
      faceLoop_ok_faces lines vps V F hasCb F.toNat 0 hface j (Nat.zero_le j) (by omega)
    obtain ⟨⟨w1, k1⟩, ⟨w2, k2⟩, ⟨w3, k3⟩⟩ := processFace_ok_indices hf ht hx
    have b1 := pyIndex_ok_bounds k1
    have b2 := pyIndex_ok_bounds k2
    have b3 := pyIndex_ok_bounds k3
    rw [hlen] at b1 b2 b3
    rcases hout with (h | h) | (h | h) | (h | h) <;> omega

/-- Witness for C1 amended: the face `3 5 0 0 0 0 0` of a one-vertex mesh
references index `5 ≥ V = 1`, and the parse returns the sentinel. -/
theorem index_outside_pyrange_gives_sentinel_witness :
    listGet exOobIdx 1 = .ok ⟨"1 1".toList, [Token.intTok 1, Token.intTok 1]⟩
      ∧ (0 : Nat) < (1 : Int).toNat
      ∧ (1 : Int) ≤ 5
      ∧ load_custom_off exOobIdx false = (none, none) :=
  ⟨rfl, by decide, by decide,
   index_outside_pyrange_gives_sentinel exOobIdx false
     ⟨"1 1".toList, [Token.intTok 1, Token.intTok 1]⟩
     ⟨"3 5 0 0 0 0 0".toList,
      [Token.intTok 3, Token.intTok 5, Token.intTok 0, Token.intTok 0,
       Token.intTok 0, Token.intTok 0, Token.intTok 0]⟩
     1 1 [] 0 5 0 0 0 0 0 rfl rfl (by decide) rfl rfl (Or.inl (Or.inr (by decide)))⟩

/-- C4: an accepted face record `3 i1 i2 i3 r g b` with `r, g, b` integers
in `[0, 255]` emits exactly three colour entries — all identical and equal
to `(r/255, g/255, b/255)`, each component in `[0, 1]` — alongside the
positions of vertices `i1, i2, i3` in that order. -/
theorem accepted_face_emission (lines : List PyLine) (vps : List (List ℚ)) (V : Int)
    (j : Nat) (fline : PyLine) (i1 i2 i3 r g b : Int) (v1 v2 v3 : List ℚ)
    (hf : pyIndex lines (2 + V + (j : Int)) = .ok fline)
    (ht : fline.toks = [Token.intTok 3, Token.intTok i1, Token.intTok i2, Token.intTok i3,
      Token.intTok r, Token.intTok g, Token.intTok b])
    (hr0 : 0 ≤ r) (hr1 : r ≤ 255) (hg0 : 0 ≤ g) (hg1 : g ≤ 255) (hb0 : 0 ≤ b) (hb1 : b ≤ 255)
    (h1 : pyIndex vps i1 = .ok v1) (h2 : pyIndex vps i2 = .ok v2)
    (h3 : pyIndex vps i3 = .ok v3) :
    processFace lines vps V j
        = .ok (some ([v1, v2, v3],
            [[(r : ℚ) / 255, (g : ℚ) / 255, (b : ℚ) / 255],
             [(r : ℚ) / 255, (g : ℚ) / 255, (b : ℚ) / 255],
             [(r : ℚ) / 255, (g : ℚ) / 255, (b : ℚ) / 255]]))
      ∧ (0 ≤ (r : ℚ) / 255 ∧ (r : ℚ) / 255 ≤ 1)
      ∧ (0 ≤ (g : ℚ) / 255 ∧ (g : ℚ) / 255 ≤ 1)
      ∧ (0 ≤ (b : ℚ) / 255 ∧ (b : ℚ) / 255 ≤ 1) := by
  have hq : ∀ x : Int, 0 ≤ x → x ≤ 255 → 0 ≤ (x : ℚ) / 255 ∧ (x : ℚ) / 255 ≤ 1 := by
    intro x hx0 hx1
    constructor
    · apply div_nonneg _ (by norm_num)
      exact_mod_cast hx0
    · rw [div_le_one (by norm_num)]
      exact_mod_cast hx1
  refine ⟨?_, hq r hr0 hr1, hq g hg0 hg1, hq b hb0 hb1⟩
  have g0 : getInt fline.toks 0 = .ok 3 := by rw [ht]; rfl
  have g1 : getInt fline.toks 1 = .ok i1 := by rw [ht]; rfl
  have g2 : getInt fline.toks 2 = .ok i2 := by rw [ht]; rfl
  have g3 : getInt fline.toks 3 = .ok i3 := by rw [ht]; rfl
  have g4 : getFloat fline.toks 4 = .ok ((r : ℚ)) := by rw [ht]; rfl
  have g5 : getFloat fline.toks 5 = .ok ((g : ℚ)) := by rw [ht]; rfl
  have g6 : getFloat fline.toks 6 = .ok ((b : ℚ)) := by rw [ht]; rfl
  rw [processFace]
  simp only [hf, g0, g1, g2, g3, g4, g5, g6, if_pos, h1, h2, h3]

/-- Witness for C4: the first face of the spec's scenario file emits the
positions of vertices `0, 1, 2` and three identical colours `255/255, 0, 0`,
whose components lie in `[0, 1]`. -/
theorem accepted_face_emission_witness :
    processFace exScene exSceneVps 4 0
        = .ok (some ([[q0, q0, q0], [q1, q0, q0], [q0, q1, q0]], [colRed, colRed, colRed]))
      ∧ (0 ≤ ((255 : Int) : ℚ) / 255 ∧ ((255 : Int) : ℚ) / 255 ≤ 1)
      ∧ (0 ≤ q0 / 255 ∧ q0 / 255 ≤ 1)
      ∧ (0 ≤ q0 / 255 ∧ q0 / 255 ≤ 1) :=
  accepted_face_emission exScene exSceneVps 4 0
    ⟨"3 0 1 2 255 0 0".toList,
     [Token.intTok 3, Token.intTok 0, Token.intTok 1, Token.intTok 2,
      Token.intTok 255, Token.intTok 0, Token.intTok 0]⟩
    0 1 2 255 0 0 [q0, q0, q0] [q1, q0, q0] [q0, q1, q0]
    rfl rfl (by decide) (by decide) (by decide) (by decide) (by decide) (by decide)
    rfl rfl rfl

/-- C5: on a parse that runs with a progress callback supplied, the callback
is invoked exactly once per face iteration `i` with `i % 15000 == 0` or
`i = F - 1`, in order, with fraction `(i+1)/F`; every invoked fraction lies
in `[0, 1]`. -/
theorem progress_callback_trace (lines : List PyLine) (l1 : PyLine) (V F : Int)
    (rest : List Int) (v c : List (List ℚ)) (calls : List (Nat × ℚ))
    (h1 : listGet lines 1 = .ok l1)
    (hc : mapExcept pyInt l1.toks = .ok (V :: F :: rest))
    (hF : 1 ≤ F)
    (hload : loadBody lines true = .ok (v, c, calls)) :
    calls = callTrace F F.toNat ∧ ∀ p ∈ calls, 0 ≤ p.2 ∧ p.2 ≤ 1 := by
  obtain ⟨vps, -, -, hface⟩ := loadBody_ok_inv h1 hc hload
  have htrace := faceLoop_ok_calls lines vps V F F.toNat 0 hface
  have htrace2 : calls = callTrace F F.toNat := by
    rw [htrace]
    unfold callTrace
    rw [List.range_eq_range']
  refine ⟨htrace2, ?_⟩
  intro p hp
  rw [htrace2] at hp
  unfold callTrace at hp
  simp only [List.mem_map, List.mem_filter, List.mem_range] at hp
  obtain ⟨j, ⟨hjr, -⟩, rfl⟩ := hp
  have hF0 : (0 : ℚ) < (F : ℚ) := by
    have : (0 : Int) < F := by omega
    exact_mod_cast this
  constructor
  · apply div_nonneg _ hF0.le
    positivity
  · rw [div_le_one hF0]
    have hj : (j : Int) + 1 ≤ F := by omega
    have : (((j : Int) + 1 : Int) : ℚ) ≤ ((F : Int) : ℚ) := by exact_mod_cast hj
    push_cast at this
    simpa using this

/-- Witness for C5: on the two-face scenario file the callback fires at face
iterations `0` (stride) and `1` (final face) with fractions `1/2` and `1`,
both in `[0, 1]`. -/
theorem progress_callback_trace_witness :
    loadBody exScene true = .ok (exSceneV, exSceneC, [(0, frac0), (1, frac1)])
      ∧ [(0, frac0), (1, frac1)] = callTrace 2 (2 : Int).toNat
      ∧ (0 ≤ frac0 ∧ frac0 ≤ 1) :=
  ⟨rfl,
   (progress_callback_trace exScene ⟨"4 2 5".toList,
       [Token.intTok 4, Token.intTok 2, Token.intTok 5]⟩ 4 2 [5] exSceneV exSceneC
       [(0, frac0), (1, frac1)] rfl rfl (by decide) rfl).1,
   (progress_callback_trace exScene ⟨"4 2 5".toList,
       [Token.intTok 4, Token.intTok 2, Token.intTok 5]⟩ 4 2 [5] exSceneV exSceneC
       [(0, frac0), (1, frac1)] rfl rfl (by decide) rfl).2
     (0, frac0) (List.mem_cons_self _ _)⟩

/-- C10: the counts line is converted with `int` applied to every token —
when it yields at least two integers, only the first two are used as
`(V, F)` and any further integer tokens are ignored; a non-integer token
anywhere on the line, or fewer than two tokens, makes the parse return the
sentinel. -/
theorem counts_line_handling (lines : List PyLine) (hasCb : Bool) (l0 l1 : PyLine)
    (h0 : listGet lines 0 = .ok l0)
    (hh : headerOk (pyStrip l0.raw) = true)
    (h1 : listGet lines 1 = .ok l1) :
    (∀ (V F : Int) (extra : List Int), mapExcept pyInt l1.toks = .ok (V :: F :: extra) →
        loadBody lines hasCb = loadAfterCounts lines V F hasCb)
      ∧ (∀ t ∈ l1.toks, pyInt t = .error .valueError →
          load_custom_off lines hasCb = (none, none))
      ∧ (∀ W : Int, mapExcept pyInt l1.toks = .ok [W] →
          load_custom_off lines hasCb = (none, none))
      ∧ (mapExcept pyInt l1.toks = .ok [] →
          load_custom_off lines hasCb = (none, none)) := by
  refine ⟨?_, ?_, ?_, ?_⟩
  · intro V F extra hc
    rw [loadBody]
    simp only [h0, hh, if_true, h1, hc]
    have e0 : listGet (V :: F :: extra) 0 = .ok V := rfl
    have e1 : listGet (V :: F :: extra) 1 = .ok F := rfl
    simp only [e0, e1]
  · intro t htmem hterr
    obtain ⟨e2, hmap⟩ := mapExcept_error_of_mem htmem hterr
    have hbody : loadBody lines hasCb = .error e2 := by
      rw [loadBody]
      simp only [h0, hh, if_true, h1, hmap]
    simp [load_custom_off, hbody]
  · intro W hc1
    have hbody : loadBody lines hasCb = .error .indexError := by
      rw [loadBody]
      simp only [h0, hh, if_true, h1, hc1]
      rfl
    simp [load_custom_off, hbody]
  · intro hc0
    have hbody : loadBody lines hasCb = .error .indexError := by
      rw [loadBody]
      simp only [h0, hh, if_true, h1, hc0]
      rfl
    simp [load_custom_off, hbody]

/-- Witness for C10: a counts line `4 2 5` is accepted with `(V, F) = (4, 2)`
and the extra token ignored; a counts line `1 x`, a one-token counts line and
an empty counts line each give the sentinel. -/
theorem counts_line_handling_witness :
    loadBody exScene false = loadAfterCounts exScene 4 2 false
      ∧ load_custom_off exBadTok false = (none, none)
      ∧ load_custom_off exShortCounts false = (none, none)
      ∧ load_custom_off exEmptyCounts false = (none, none) :=
  ⟨(counts_line_handling exScene false ⟨"OFF".toList, [Token.junk]⟩
      ⟨"4 2 5".toList, [Token.intTok 4, Token.intTok 2, Token.intTok 5]⟩
      rfl (by decide) rfl).1 4 2 [5] rfl,
   (counts_line_handling exBadTok false ⟨"OFF".toList, [Token.junk]⟩
      ⟨"1 x".toList, [Token.intTok 1, Token.junk]⟩
      rfl (by decide) rfl).2.1 Token.junk
        (List.mem_cons_of_mem _ (List.mem_cons_self _ _)) rfl,
   (counts_line_handling exShortCounts false ⟨"OFF".toList, [Token.junk]⟩
      ⟨"7".toList, [Token.intTok 7]⟩ rfl (by decide) rfl).2.2.1 7 rfl,
   (counts_line_handling exEmptyCounts false ⟨"OFF".toList, [Token.junk]⟩
      ⟨"".toList, []⟩ rfl (by decide) rfl).2.2.2 rfl⟩

/-- Witness for C3: the spec's scenario file is accepted with two triangular
faces and both buffers have length `6 = 3 × 2`. -/
theorem buffer_lengths_witness :
    load_custom_off exScene false = (some exSceneV, some exSceneC)
      ∧ exSceneV.length = exSceneC.length
      ∧ exSceneV.length = 3 * countTri exScene 4 2 0 :=
  ⟨rfl, buffer_lengths_three_times_tri_faces exScene false
     ⟨"4 2 5".toList, [Token.intTok 4, Token.intTok 2, Token.intTok 5]⟩
     4 2 [5] exSceneV exSceneC rfl rfl rfl⟩
